import Mathlib

/-!
Verification of the security gate of the agent-generator repository.

Two components are embedded from the Python sources:

* the capability policy engine `SecurityValidator` of
  `src/skills/skills/deepagent-generator/scripts/generate-agent-enhanced.py`
  (`generate_security_policy`, `validate_tool_call` and the per-tool
  `_validate_*` helpers, lines 3016-3180, plus the risk classifier
  `_assess_tool_risk` / `_check_tool_compatibility`, lines 351-375);
* the static source validator of
  `src/agent-generator-plugin/skills/agent-generator/scripts/validate_code.py`
  (`SecurityValidator` AST visitor and `validate_python_code`).

Python strings are modelled as `String` / `List Char`; Python dicts of
string parameters as association lists; Python exceptions as `Except`.
The regular-expression patterns of the policies are kept as the literal
strings of the source and interpreted by a small regex engine
(`compileRegex` / `reSearchL`) covering exactly the constructs those
patterns use (literals, `.`, `*`, `+`, `|`, groups, backslash escapes),
with Python `re` semantics: `.` does not match a newline, a lone `|`
branch may be empty, `\\` in a pattern matches one literal backslash.
-/

namespace AgentGate

/-! ## Modelled Python string primitives -/

/-- Python `str.isspace` characters as used by `str.split()` / `str.strip()`. -/
def isPyWs (c : Char) : Bool := c.isWhitespace

/-- `needle` is a prefix of `hay` (Python `str.startswith`). -/
def isPrefixL : List Char → List Char → Bool
  | [], _ => true
  | _ :: _, [] => false
  | a :: as, b :: bs => a == b && isPrefixL as bs

/-- Python `needle in hay` substring test. -/
def containsSub : List Char → List Char → Bool
  | [], needle => isPrefixL needle []
  | c :: t, needle => isPrefixL needle (c :: t) || containsSub t needle

/-- Python `code.split("\n")`. -/
def pySplitNl : List Char → List (List Char)
  | [] => [[]]
  | c :: cs =>
    if c == '\n' then [] :: pySplitNl cs
    else
      match pySplitNl cs with
      | [] => [[c]]
      | l :: ls => (c :: l) :: ls

/-- Python `str.strip()` (strip whitespace on both ends). -/
def pyStrip (l : List Char) : List Char :=
  ((l.dropWhile isPyWs).reverse.dropWhile isPyWs).reverse

/-- Python `s.split()[0]`: first whitespace-separated token, if any
(`s.split()` drops empty fields, so an all-whitespace string has none). -/
def firstToken (cs : List Char) : Option (List Char) :=
  match cs.dropWhile isPyWs with
  | [] => none
  | c :: t => some ((c :: t).takeWhile (fun x => !isPyWs x))

/-- Python `s.lower()` (ASCII case fold suffices for the strings involved). -/
def pyLower (s : String) : String := String.mk (s.data.map Char.toLower)

/-- Python `s.split('.')[0]`: the root segment of a dotted module path. -/
def rootOf (s : String) : String := String.mk (s.data.takeWhile (fun c => c != '.'))

/-- The name of the last path component, as `pathlib.PurePath(p).name`
(trailing slashes dropped, then everything after the last `/`). -/
def pathName (p : List Char) : List Char :=
  ((p.reverse.dropWhile (fun c => c == '/')).takeWhile (fun c => c != '/')).reverse

/-- `pathlib.PurePath(p).suffix`: the extension of the final component,
empty unless the last `.` of the name is at an interior position. -/
def pathSuffix (p : String) : String :=
  let name := pathName p.data
  let i := name.length - 1 - ((name.reverse.takeWhile (fun c => c != '.')).length)
  if name.contains '.' && 0 < i && i < name.length - 1 then
    String.mk (name.drop i)
  else ""

/-! ## A small regex engine with Python `re` semantics

Only the constructs appearing in the policy patterns are supported:
character literals, `.` (any character except newline), postfix `*` and
`+`, alternation `|` (branches may be empty), groups `(...)`, and
backslash escapes (`\\` a literal backslash, `\d` a digit, `\s`
whitespace, any other escaped character itself).  Matching is by
Brzozowski derivatives; `reSearchL` is `re.search` (match anywhere). -/

inductive Regex where
  | emp
  | eps
  | anyc
  | ch (c : Char)
  | clsDigit
  | clsSpace
  | cat (a b : Regex)
  | alt (a b : Regex)
  | star (a : Regex)
  deriving DecidableEq

/-- Does the regex accept the empty string? -/
def nullable : Regex → Bool
  | .emp => false
  | .eps => true
  | .anyc => false
  | .ch _ => false
  | .clsDigit => false
  | .clsSpace => false
  | .cat a b => nullable a && nullable b
  | .alt a b => nullable a || nullable b
  | .star _ => true

/-- Character equality, case-insensitive when `ci` (for `re.IGNORECASE`). -/
def chMatch (ci : Bool) (p c : Char) : Bool :=
  if ci then p.toLower == c.toLower else p == c

/-- Brzozowski derivative with respect to one character. -/
def deriv (ci : Bool) : Regex → Char → Regex
  | .emp, _ => .emp
  | .eps, _ => .emp
  | .anyc, c => if c == '\n' then .emp else .eps
  | .ch p, c => if chMatch ci p c then .eps else .emp
  | .clsDigit, c => if c.isDigit then .eps else .emp
  | .clsSpace, c => if c.isWhitespace then .eps else .emp
  | .cat a b, c =>
    if nullable a then .alt (.cat (deriv ci a c) b) (deriv ci b c)
    else .cat (deriv ci a c) b
  | .alt a b, c => .alt (deriv ci a c) (deriv ci b c)
  | .star a, c => .cat (deriv ci a c) (.star a)

/-- Does some prefix of `s` match `r`? -/
def prefixMatch (ci : Bool) (r : Regex) : List Char → Bool
  | [] => nullable r
  | c :: cs => nullable r || prefixMatch ci (deriv ci r c) cs

/-- `re.search`: does `r` match at some position of `s`? -/
def reSearchL (ci : Bool) (r : Regex) : List Char → Bool
  | [] => prefixMatch ci r []
  | c :: cs => prefixMatch ci r (c :: cs) || reSearchL ci r cs

mutual

/-- Parse an alternation (`a|b|...`; an empty branch parses as `eps`). -/
def parseAlt : Nat → List Char → Option (Regex × List Char)
  | 0, _ => none
  | fuel + 1, s => do
    let (r, rest) ← parseCat fuel s
    match rest with
    | '|' :: t => do
      let (r2, rest2) ← parseAlt fuel t
      pure (.alt r r2, rest2)
    | _ => pure (r, rest)

/-- Parse a (possibly empty) concatenation, stopping at `|`, `)` or the end. -/
def parseCat : Nat → List Char → Option (Regex × List Char)
  | 0, _ => none
  | fuel + 1, s =>
    match s with
    | [] => pure (.eps, [])
    | '|' :: _ => pure (.eps, s)
    | ')' :: _ => pure (.eps, s)
    | _ => do
      let (r, rest) ← parsePost fuel s
      let (r2, rest2) ← parseCat fuel rest
      pure (.cat r r2, rest2)

/-- Parse one atom and an optional postfix `*` or `+`. -/
def parsePost : Nat → List Char → Option (Regex × List Char)
  | 0, _ => none
  | fuel + 1, s => do
    let (r, rest) ← parseAtom fuel s
    match rest with
    | '*' :: t => pure (.star r, t)
    | '+' :: t => pure (.cat r (.star r), t)
    | _ => pure (r, rest)

/-- Parse one atom: group, `.`, escape, or a literal character. -/
def parseAtom : Nat → List Char → Option (Regex × List Char)
  | 0, _ => none
  | fuel + 1, s =>
    match s with
    | [] => none
    | '(' :: t => do
      let (r, rest) ← parseAlt fuel t
      match rest with
      | ')' :: t2 => pure (r, t2)
      | _ => none
    | '.' :: t => pure (.anyc, t)
    | '\\' :: c :: t =>
      if c == 'd' then pure (.clsDigit, t)
      else if c == 's' then pure (.clsSpace, t)
      else pure (.ch c, t)
    | '\\' :: [] => none
    | '|' :: _ => none
    | ')' :: _ => none
    | '*' :: _ => none
    | '+' :: _ => none
    | c :: t => pure (.ch c, t)

end

/-- Compile a pattern string; `none` on a malformed pattern (every pattern
in the registry compiles, which the concrete evaluations below confirm). -/
def compileRegex (p : String) : Option Regex :=
  match parseAlt (3 * p.length + 9) p.data with
  | some (r, []) => some r
  | _ => none

/-- `re.search(pat, s)`, `ci` selecting `re.IGNORECASE`. -/
def reSearchS (ci : Bool) (pat : String) (s : String) : Bool :=
  match compileRegex pat with
  | some r => reSearchL ci r s.data
  | none => false

/-! ## Capability policy engine

From `generate-agent-enhanced.py`, class `SecurityValidator`
(lines 3016-3180).  A policy is one Python dict per tool; its keys
become optional fields here.  Reading a key a policy does not carry
models Python's `KeyError` through `Except`, as does the
`command.split()[0]` indexing of `_validate_execute_command`. -/

/-- A tool-call parameter dict with string values (`Dict[str, Any]`). -/
abbrev Params := List (String × String)

/-- Python `params.get(key, default)`. -/
def getParam (params : Params) (key dflt : String) : String :=
  match params.find? (fun kv => kv.1 == key) with
  | some kv => kv.2
  | none => dflt

/-- One security policy dict: every key occurring in the registry of
`generate_security_policy`, absent keys being `none`. -/
structure Policy where
  allowed_paths : Option (List String) := none
  blocked_patterns : Option (List String) := none
  max_file_size : Option Nat := none
  timeout : Option Nat := none
  require_safe_paths : Option Bool := none
  allowed_extensions : Option (List String) := none
  blocked_paths : Option (List String) := none
  allowed_schemes : Option (List String) := none
  blocked_domains : Option (List String) := none
  max_redirects : Option Nat := none
  require_https : Option Bool := none
  allowed_commands : Option (List String) := none
  max_output_size : Option Nat := none
  allow_sudo : Option Bool := none
  require_shell : Option Bool := none
  allowed_directories : Option (List String) := none
  create_backup : Option Bool := none
  max_attempts : Option Nat := none
  require_validation : Option Bool := none
  logging_level : Option String := none

/-- `SecurityValidator.generate_security_policy` (lines 3022-3073): the
static per-tool policy table, with the default policy for unknown tools.
The pattern strings are the source's raw-string literals: each `\\` pair
below is two backslash characters, exactly as in the Python values. -/
def generate_security_policy (tool_name : String) : Policy :=
  if tool_name == "search_files" then
    { allowed_paths := some [".", "./workspace", "./project", "./src"],
      blocked_patterns := some ["/etc/", "/proc/", "/sys/", "~/.ssh", "~/.gnupg", "/root/"],
      max_file_size := some 10485760,
      timeout := some 30,
      require_safe_paths := some true }
  else if tool_name == "read_file" then
    { allowed_extensions := some [".py", ".md", ".txt", ".json", ".yaml", ".yml", ".js", ".ts", ".java", ".cpp", ".c", ".h"],
      blocked_paths := some ["/etc/", "/proc/", "/sys/", "/root/", "~/.ssh", "~/.gnupg"],
      max_file_size := some 5242880,
      timeout := some 10,
      require_safe_paths := some true }
  else if tool_name == "browser_navigate" then
    { allowed_schemes := some ["http", "https"],
      blocked_domains := some ["localhost", "127.0.0.1", "0.0.0.0", "file://", "internal"],
      timeout := some 45,
      max_redirects := some 5,
      require_https := some false }
  else if tool_name == "execute_command" then
    { allowed_commands := some ["ls", "echo", "cat", "grep", "find", "pwd", "which", "head", "tail"],
      blocked_patterns := some ["rm\\\\s+-rf", "dd\\\\s+if=", ":\\\\(\\\\)\\\\\x7b", "chmod\\\\s+\\\\d+\\\\s+/", ">\\\\s*/dev/sd", "wget.*\\\\|", "curl.*\\\\|"],
      timeout := some 60,
      max_output_size := some 1048576,
      allow_sudo := some false,
      require_shell := some false }
  else if tool_name == "write_to_file" then
    { allowed_directories := some [".", "./workspace", "./project", "./output", "./temp"],
      blocked_paths := some ["/etc/", "/proc/", "/sys/", "/root/", "~/.ssh", "~/.gnupg"],
      max_file_size := some 10485760,
      create_backup := some true,
      timeout := some 30,
      require_safe_paths := some true }
  else
    { timeout := some 30,
      max_attempts := some 3,
      require_validation := some true,
      logging_level := some "INFO" }

/-- The `validation_result` dict built by `validate_tool_call` and
returned (possibly updated) by every `_validate_*` helper. -/
structure Decision where
  allowed : Bool
  reason : String
  warnings : List String
  modified_params : Params
  deriving DecidableEq

/-- `SecurityValidator._validate_read_file` (lines 3098-3116). -/
def _validate_read_file (params : Params) (policy : Policy) (result : Decision) :
    Except String Decision :=
  let file_path := getParam params "path" ""
  match policy.blocked_paths with
  | none => .error "KeyError: blocked_paths"
  | some pats =>
    match pats.find? (fun p => reSearchS false p file_path) with
    | some _ =>
      .ok { result with allowed := false,
                        reason := s!"Access to path blocked by policy: {file_path}" }
    | none =>
      match policy.allowed_extensions with
      | some exts =>
        let ext := pyLower (pathSuffix file_path)
        if exts.contains ext then .ok result
        else .ok { result with
                     warnings := result.warnings ++ [s!"File extension {ext} may not be supported"] }
      | none => .ok result

/-- `SecurityValidator._validate_write_file` (lines 3118-3137). -/
def _validate_write_file (params : Params) (policy : Policy) (result : Decision) :
    Except String Decision :=
  let file_path := getParam params "path" ""
  match policy.blocked_paths with
  | none => .error "KeyError: blocked_paths"
  | some pats =>
    match pats.find? (fun p => reSearchS false p file_path) with
    | some _ =>
      .ok { result with allowed := false,
                        reason := s!"Write to path blocked by policy: {file_path}" }
    | none =>
      let content := getParam params "content" ""
      match policy.max_file_size with
      | none => .error "KeyError: max_file_size"
      | some maxSize =>
        if content.utf8ByteSize > maxSize then
          let n := content.length
          .ok { result with allowed := false,
                            reason := s!"Content too large: {n} bytes (max: {maxSize})" }
        else .ok result

/-- `SecurityValidator._validate_execute_command` (lines 3139-3157).
The blocked-pattern scan passes `re.IGNORECASE`; the allowed-commands
check indexes `command.split()[0]`, an `IndexError` when the command has
no token. -/
def _validate_execute_command (params : Params) (policy : Policy) (result : Decision) :
    Except String Decision :=
  let command := getParam params "command" ""
  match policy.blocked_patterns with
  | none => .error "KeyError: blocked_patterns"
  | some pats =>
    match pats.find? (fun p => reSearchS true p command) with
    | some p =>
      .ok { result with allowed := false,
                        reason := s!"Command blocked by security policy: {p}" }
    | none =>
      match policy.allowed_commands with
      | none => .ok result
      | some cmds =>
        match firstToken command.data with
        | none => .error "IndexError: list index out of range"
        | some tok =>
          let cmd_start := pyLower (String.mk tok)
          if cmds.contains cmd_start then .ok result
          else .ok { result with
                       warnings := result.warnings ++ [s!"Command {cmd_start} not in allowed list"] }

/-- The `scheme` and `netloc` fields of `urllib.parse.urlparse(url)`
(the only fields `_validate_browser_navigate` reads): a scheme is a
leading alphabetic-then-alphanumeric/`+`/`-`/`.` run before `:` and is
lowercased; the netloc follows a `//` and runs to `/`, `?` or `#`.
As in CPython's `urlsplit`, a netloc containing `[` without `]` (or
`]` without `[`) raises `ValueError("Invalid IPv6 URL")` — the carried
message is Python's `str(e)`.  (CPython 3.11+ additionally validates
the content of a matched bracket pair; that only sends further inputs
down the same raise-and-catch path and is not modelled.) -/
def urlSchemeNetloc (url : String) : Except String (String × String) :=
  let cs := url.data
  let pre := cs.takeWhile (fun c => c != ':')
  let validScheme :=
    decide (pre.length < cs.length) &&
      (match pre with
       | [] => false
       | c :: rest => c.isAlpha && rest.all (fun x => x.isAlphanum || x == '+' || x == '-' || x == '.'))
  let rest := if validScheme then cs.drop (pre.length + 1) else cs
  let scheme := if validScheme then String.mk (pre.map Char.toLower) else ""
  if rest.take 2 == ['/', '/'] then
    let netloc := (rest.drop 2).takeWhile (fun c => c != '/' && c != '?' && c != '#')
    if (netloc.contains '[' && !netloc.contains ']')
        || (netloc.contains ']' && !netloc.contains '[') then
      .error "Invalid IPv6 URL"
    else .ok (scheme, String.mk netloc)
  else .ok (scheme, "")

/-- The body of the `try` block of `_validate_browser_navigate`
(lines 3164-3176): parse the URL, check the scheme against
`allowed_schemes`, then the netloc against `blocked_domains`
(substring match).  Any raise — reachably the `ValueError` of
`urlparse`, or a `KeyError` from a policy missing one of the read keys
— propagates to the `except` handler in `_validate_browser_navigate`. -/
def _browser_navigate_try (url : String) (policy : Policy) (result : Decision) :
    Except String Decision :=
  match urlSchemeNetloc url with
  | .error e => .error e
  | .ok parsed =>
    match policy.allowed_schemes with
    | none => .error "KeyError: allowed_schemes"
    | some schemes =>
      if !schemes.contains parsed.1 then
        let s := parsed.1
        .ok { result with allowed := false, reason := s!"URL scheme not allowed: {s}" }
      else
        match policy.blocked_domains with
        | none => .error "KeyError: blocked_domains"
        | some doms =>
          match doms.find? (fun d => containsSub parsed.2.data d.data) with
          | some _ =>
            let n := parsed.2
            .ok { result with allowed := false, reason := s!"Access to domain blocked: {n}" }
          | none => .ok result

/-- `SecurityValidator._validate_browser_navigate` (lines 3159-3180):
the whole check runs inside `try ... except Exception as e`, which
turns every raise of the body into the denial
`Invalid URL format: {e}` — reachably so, since `urlparse` raises on a
mismatched-bracket netloc such as `http://[`.  The function itself
therefore never raises.  (For a `KeyError` Python's `str(e)` would be
the quoted key rather than the message carried here; both `KeyError`
sites are unreachable under the registry's `browser_navigate` policy,
which declares both keys.) -/
def _validate_browser_navigate (params : Params) (policy : Policy) (result : Decision) :
    Except String Decision :=
  let url := getParam params "url" ""
  match _browser_navigate_try url policy result with
  | .ok r => .ok r
  | .error e => .ok { result with allowed := false, reason := s!"Invalid URL format: {e}" }

/-- `SecurityValidator.validate_tool_call` (lines 3075-3096): resolve the
policy, build the initial allow decision, and dispatch on the tool name;
tools other than the four below are returned unchecked. -/
def validate_tool_call (tool_name : String) (parameters : Params) :
    Except String Decision :=
  let policy := generate_security_policy tool_name
  let validation_result : Decision :=
    { allowed := true, reason := "", warnings := [], modified_params := [] }
  if tool_name == "read_file" then
    _validate_read_file parameters policy validation_result
  else if tool_name == "write_to_file" then
    _validate_write_file parameters policy validation_result
  else if tool_name == "execute_command" then
    _validate_execute_command parameters policy validation_result
  else if tool_name == "browser_navigate" then
    _validate_browser_navigate parameters policy validation_result
  else
    .ok validation_result

/-! ## Risk classifier

`EnhancedDeepAgentGenerator._assess_tool_risk` (lines 351-362) and
`_check_tool_compatibility` (lines 364-375). -/

/-- `_assess_tool_risk`: fixed high/medium tables with promotion to
`"high"` at the `"high"`/`"maximum"` security levels (the policy
argument is taken but unused, as in the source). -/
def _assess_tool_risk (tool_name : String) (_policy : Policy) (security_level : String) :
    String :=
  let high_risk_tools := ["execute_command", "write_to_file", "browser_navigate"]
  let medium_risk_tools := ["read_file", "search_files", "apply_diff"]
  if high_risk_tools.contains tool_name then
    if ["high", "maximum"].contains security_level then "high" else "medium"
  else if medium_risk_tools.contains tool_name then "medium"
  else "low"

/-- `_check_tool_compatibility`: flag the command-execution +
browser-automation combination, and sets of more than 8 tools. -/
def _check_tool_compatibility (tools : List String) : List String :=
  let issues : List String := []
  let issues :=
    if tools.contains "execute_command" && tools.contains "browser_navigate" then
      issues ++ ["Combining command execution with browser automation may have security implications"]
    else issues
  let issues :=
    if tools.length > 8 then
      let n := tools.length
      issues ++ [s!"Large number of tools ({n}) may impact performance and increase complexity"]
    else issues
  issues

/-! ## Static source validator

From `validate_code.py`: the `SecurityValidator` AST visitor and
`validate_python_code`.  The Python `ast` parse tree is embedded as
`PyExpr` / `PyStmt`; `ast.parse` itself is external, so the validator
takes the parse outcome (`Except SyntaxErr (List PyStmt)`) together with
the raw source text used by the line heuristics.  Every node carries its
`lineno`.  An `import` alias is its dotted name (the `asname` is never
read by the visitor); statement kinds without special visitors behave
uniformly under `generic_visit`, so the representative kinds below
(expression statement, assignment, `if`, `return`, function bodies)
cover the traversal. -/

/-- Python expressions, as the visitor distinguishes them: a bare name,
an attribute access, a call (with its argument expressions), or any
other leaf (`ast.Constant` and the like). -/
inductive PyExpr where
  | name (id : String) (lineno : Nat)
  | attr (value : PyExpr) (attrName : String) (lineno : Nat)
  | call (func : PyExpr) (args : List PyExpr) (lineno : Nat)
  | const (lineno : Nat)

/-- Python statements: the import forms the visitor scans, function
bodies it descends into, and representative compound/simple statements. -/
inductive PyStmt where
  | exprStmt (value : PyExpr) (lineno : Nat)
  | assign (targets : List PyExpr) (value : PyExpr) (lineno : Nat)
  | importStmt (names : List String) (lineno : Nat)
  | importFrom (module : Option String) (names : List String) (lineno : Nat)
  | funcDef (nm : String) (body : List PyStmt) (lineno : Nat)
  | asyncFuncDef (nm : String) (body : List PyStmt) (lineno : Nat)
  | ifStmt (test : PyExpr) (body : List PyStmt) (orelse : List PyStmt) (lineno : Nat)
  | ret (value : Option PyExpr) (lineno : Nat)

/-- `SecurityValidator.FORBIDDEN_CALLS`. -/
def FORBIDDEN_CALLS : List String :=
  ["eval", "exec", "compile", "__import__",
   "open", "file", "input", "raw_input",
   "system", "popen", "subprocess"]

/-- `SecurityValidator.ALLOWED_IMPORTS`. -/
def ALLOWED_IMPORTS : List String :=
  ["langgraph", "langchain", "langchain_core", "langchain_community",
   "pydantic", "deepagents",
   "json", "os", "sys", "asyncio", "logging", "typing",
   "datetime", "dataclasses", "functools", "itertools",
   "pathlib", "tempfile", "shutil",
   "requests", "aiohttp", "redis",
   "tenacity", "dotenv"]

/-- The message of `visit_Call` for a forbidden bare call. -/
def fmtCall (lineno : Nat) (id : String) : String :=
  "Line " ++ toString lineno ++ ": Forbidden function call: " ++ id

/-- The message of `visit_Import` for an unauthorized import. -/
def fmtImp (lineno : Nat) (nm : String) : String :=
  "Line " ++ toString lineno ++ ": Unauthorized import: " ++ nm

/-- The message of `visit_ImportFrom` for an unauthorized import. -/
def fmtImpFrom (lineno : Nat) (module : String) : String :=
  "Line " ++ toString lineno ++ ": Unauthorized import from: " ++ module

/-- The mutable state of a `SecurityValidator` instance: `self.errors`,
`self.warnings` and `self.imports` (the `in_function_def` flag is set by
`visit_FunctionDef` but never read for any decision, so it is omitted). -/
structure VState where
  errors : List String
  warnings : List String
  imports : List String
  deriving DecidableEq

/-- The body of `visit_Call` before its `generic_visit`: flag the call
when its target is a bare `ast.Name` in `FORBIDDEN_CALLS` (attribute /
method targets are left alone). -/
def callCheck (st : VState) (func : PyExpr) (lineno : Nat) : VState :=
  match func with
  | .name id _ =>
    if FORBIDDEN_CALLS.contains id then
      { st with errors := st.errors ++ [fmtCall lineno id] }
    else st
  | _ => st

/-- One iteration of the `visit_Import` alias loop: record the full
dotted name in `self.imports`, then flag it when its root segment is not
allow-listed. -/
def importStep (lineno : Nat) (st : VState) (nm : String) : VState :=
  let st := { st with imports := st.imports ++ [nm] }
  if ALLOWED_IMPORTS.contains (rootOf nm) then st
  else { st with errors := st.errors ++ [fmtImp lineno nm] }

/-- The body of `visit_ImportFrom`: `node.module` can be `None` (a
relative `from . import x`), and Python's `if node.module:` also skips
an empty string. -/
def importFromCheck (st : VState) (module : Option String) (lineno : Nat) : VState :=
  match module with
  | none => st
  | some m =>
    if m == "" then st
    else
      let st := { st with imports := st.imports ++ [m] }
      if ALLOWED_IMPORTS.contains (rootOf m) then st
      else { st with errors := st.errors ++ [fmtImpFrom lineno m] }

mutual

/-- `SecurityValidator.visit` on an expression node: the `visit_Call`
hook fires on calls; every other expression is `generic_visit`ed, and
`generic_visit` recurses into child nodes in field order. -/
def visitExpr (st : VState) : PyExpr → VState
  | .name _ _ => st
  | .const _ => st
  | .attr v _ _ => visitExpr st v
  | .call f args l => visitExprs (visitExpr (callCheck st f l) f) args

/-- Visit a list of child expressions left to right. -/
def visitExprs (st : VState) : List PyExpr → VState
  | [] => st
  | e :: es => visitExprs (visitExpr st e) es

/-- `SecurityValidator.visit` on a statement node: `visit_Import`,
`visit_ImportFrom`, `visit_FunctionDef` / `visit_AsyncFunctionDef` fire
where declared; everything else is `generic_visit`ed structurally. -/
def visitStmt (st : VState) : PyStmt → VState
  | .exprStmt e _ => visitExpr st e
  | .assign tgts v _ => visitExpr (visitExprs st tgts) v
  | .importStmt names l => names.foldl (importStep l) st
  | .importFrom module _ l => importFromCheck st module l
  | .funcDef _ body _ => visitStmts st body
  | .asyncFuncDef _ body _ => visitStmts st body
  | .ifStmt t body orelse _ => visitStmts (visitStmts (visitExpr st t) body) orelse
  | .ret none _ => st
  | .ret (some e) _ => visitExpr st e

/-- Visit a list of statements (a module or a body) left to right. -/
def visitStmts (st : VState) : List PyStmt → VState
  | [] => st
  | s :: ss => visitStmts (visitStmt st s) ss

end

/-- A `SyntaxError` from `ast.parse`: its `lineno` and `msg`. -/
structure SyntaxErr where
  lineno : Nat
  msg : String

/-- The hardcoded-secret line heuristic: needles whose presence on a
line triggers the warning, unless an environment-lookup needle is also
present. -/
def secretNeedles : List String := ["api_key = \"", "token = \"", "password = \""]

/-- The environment-lookup needles exempting a line from the secret warning. -/
def envNeedles : List String := ["os.getenv", "environ.get"]

/-- Needles exempting a `print(`-line from the logging warning. -/
def printExemptNeedles : List String := ["logging", "__name__", "argparse"]

/-- The hardcoded-secret scan over the physical lines (`enumerate(lines, 1)`). -/
def secretWarnings (i : Nat) : List (List Char) → List String
  | [] => []
  | ln :: rest =>
    (if secretNeedles.any (fun n => containsSub ln n.data)
        && !envNeedles.any (fun n => containsSub ln n.data) then
       [s!"Line {i}: Potential hardcoded secret detected. Use os.getenv() instead."]
     else []) ++ secretWarnings (i + 1) rest

/-- The print-instead-of-logging scan over the physical lines. -/
def printWarnings (i : Nat) : List (List Char) → List String
  | [] => []
  | ln :: rest =>
    (if isPrefixL "print(".data (pyStrip ln)
        && !printExemptNeedles.any (fun n => containsSub ln n.data) then
       [s!"Line {i}: Use logging instead of print() for production code"]
     else []) ++ printWarnings (i + 1) rest

/-- `ValidationResult` of `validate_code.py`. -/
structure ValidationResult where
  valid : Bool
  errors : List String
  warnings : List String
  imports_found : List String
  deriving DecidableEq

/-- `validate_python_code` (lines 103-166): report a parse failure as a
single error and stop; otherwise run the visitor, then the line
heuristics, then the no-imports check, and set
`valid = len(errors) == 0`. -/
def validate_python_code (parsed : Except SyntaxErr (List PyStmt)) (code : String) :
    ValidationResult :=
  match parsed with
  | .error e =>
    let l := e.lineno
    let m := e.msg
    { valid := false,
      errors := [s!"Syntax error at line {l}: {m}"],
      warnings := [],
      imports_found := [] }
  | .ok tree =>
    let validator := visitStmts ⟨[], [], []⟩ tree
    let errors := validator.errors
    let lines := pySplitNl code.data
    let warnings :=
      validator.warnings ++ secretWarnings 1 lines ++ printWarnings 1 lines
    let imports := validator.imports
    let warnings :=
      warnings ++ (if imports.isEmpty then ["No imports detected - code may be incomplete"] else [])
    { valid := errors.isEmpty,
      errors := errors,
      warnings := warnings,
      imports_found := imports }

/-! ## Characterisation of the tree walk

The visitor above threads an accumulator.  The collectors below give the
per-node contributions in walk order; the `_spec` lemmas prove the two
presentations equal, which is what the per-claim theorems build on. -/

/-- The diagnostics the `visit_Call` check emits at one call node:
one error exactly when the target is a bare forbidden name. -/
def callContrib (func : PyExpr) (lineno : Nat) : List String :=
  match func with
  | .name id _ => if FORBIDDEN_CALLS.contains id then [fmtCall lineno id] else []
  | _ => []

/-- The import diagnostic for declaration form `isFrom` (`from x import y`
versus `import x`). -/
def fmtFor (isFrom : Bool) (lineno : Nat) (nm : String) : String :=
  if isFrom then fmtImpFrom lineno nm else fmtImp lineno nm

/-- The diagnostics one recorded import declaration emits: one error
exactly when the root segment of its module path is not allow-listed. -/
def importContrib (isFrom : Bool) (lineno : Nat) (nm : String) : List String :=
  if ALLOWED_IMPORTS.contains (rootOf nm) then [] else [fmtFor isFrom lineno nm]

/-- The bare forbidden-call occurrences at one call target. -/
def callPairs (func : PyExpr) (lineno : Nat) : List (Nat × String) :=
  match func with
  | .name id _ => if FORBIDDEN_CALLS.contains id then [(lineno, id)] else []
  | _ => []

mutual

/-- All visitor errors contributed inside one expression, in walk order. -/
def errsExpr : PyExpr → List String
  | .name _ _ => []
  | .const _ => []
  | .attr v _ _ => errsExpr v
  | .call f args l => callContrib f l ++ errsExpr f ++ errsExprs args

/-- All visitor errors contributed inside a list of expressions. -/
def errsExprs : List PyExpr → List String
  | [] => []
  | e :: es => errsExpr e ++ errsExprs es

end

mutual

/-- All visitor errors contributed inside one statement, in walk order. -/
def errsStmt : PyStmt → List String
  | .exprStmt e _ => errsExpr e
  | .assign tgts v _ => errsExprs tgts ++ errsExpr v
  | .importStmt names l => names.flatMap (importContrib false l)
  | .importFrom none _ _ => []
  | .importFrom (some m) _ l => if m == "" then [] else importContrib true l m
  | .funcDef _ body _ => errsStmts body
  | .asyncFuncDef _ body _ => errsStmts body
  | .ifStmt t body orelse _ => errsExpr t ++ errsStmts body ++ errsStmts orelse
  | .ret none _ => []
  | .ret (some e) _ => errsExpr e

/-- All visitor errors contributed inside a list of statements. -/
def errsStmts : List PyStmt → List String
  | [] => []
  | s :: ss => errsStmt s ++ errsStmts ss

end

mutual

/-- All module paths recorded in `self.imports` inside one statement. -/
def impsStmt : PyStmt → List String
  | .exprStmt _ _ => []
  | .assign _ _ _ => []
  | .importStmt names _ => names
  | .importFrom none _ _ => []
  | .importFrom (some m) _ _ => if m == "" then [] else [m]
  | .funcDef _ body _ => impsStmts body
  | .asyncFuncDef _ body _ => impsStmts body
  | .ifStmt _ body orelse _ => impsStmts body ++ impsStmts orelse
  | .ret _ _ => []

/-- All module paths recorded inside a list of statements. -/
def impsStmts : List PyStmt → List String
  | [] => []
  | s :: ss => impsStmt s ++ impsStmts ss

end

mutual

/-- Every bare forbidden call `(lineno, id)` occurring in an expression. -/
def bcExpr : PyExpr → List (Nat × String)
  | .name _ _ => []
  | .const _ => []
  | .attr v _ _ => bcExpr v
  | .call f args l => callPairs f l ++ bcExpr f ++ bcExprs args

/-- Every bare forbidden call occurring in a list of expressions. -/
def bcExprs : List PyExpr → List (Nat × String)
  | [] => []
  | e :: es => bcExpr e ++ bcExprs es

end

mutual

/-- Every bare forbidden call occurring in a statement. -/
def bcStmt : PyStmt → List (Nat × String)
  | .exprStmt e _ => bcExpr e
  | .assign tgts v _ => bcExprs tgts ++ bcExpr v
  | .importStmt _ _ => []
  | .importFrom _ _ _ => []
  | .funcDef _ body _ => bcStmts body
  | .asyncFuncDef _ body _ => bcStmts body
  | .ifStmt t body orelse _ => bcExpr t ++ bcStmts body ++ bcStmts orelse
  | .ret none _ => []
  | .ret (some e) _ => bcExpr e

/-- Every bare forbidden call occurring in a list of statements. -/
def bcStmts : List PyStmt → List (Nat × String)
  | [] => []
  | s :: ss => bcStmt s ++ bcStmts ss

end

mutual

/-- Every import declaration the visitor records, as
`(lineno, module path, is-from-form)`, in walk order. -/
def importDeclsStmt : PyStmt → List (Nat × String × Bool)
  | .exprStmt _ _ => []
  | .assign _ _ _ => []
  | .importStmt names l => names.map (fun n => (l, n, false))
  | .importFrom none _ _ => []
  | .importFrom (some m) _ l => if m == "" then [] else [(l, m, true)]
  | .funcDef _ body _ => importDecls body
  | .asyncFuncDef _ body _ => importDecls body
  | .ifStmt _ body orelse _ => importDecls body ++ importDecls orelse
  | .ret _ _ => []

/-- Every import declaration recorded in a list of statements. -/
def importDecls : List PyStmt → List (Nat × String × Bool)
  | [] => []
  | s :: ss => importDeclsStmt s ++ importDecls ss

end

/-- `callCheck` appends exactly the node's `callContrib`. -/
theorem callCheck_spec (st : VState) (f : PyExpr) (l : Nat) :
    callCheck st f l = { st with errors := st.errors ++ callContrib f l } := by
  cases f <;> simp only [callCheck, callContrib] <;> try simp
  split <;> simp

/-- The `visit_Import` alias loop appends the aliases' contributions and
records all their full module paths. -/
theorem importStep_fold (l : Nat) (names : List String) (st : VState) :
    names.foldl (importStep l) st
      = { st with errors := st.errors ++ names.flatMap (importContrib false l),
                  imports := st.imports ++ names } := by
  induction names generalizing st with
  | nil => simp
  | cons n ns ih =>
    rw [List.foldl_cons, ih]
    by_cases h : rootOf n ∈ ALLOWED_IMPORTS <;>
      simp [importStep, importContrib, fmtFor, h]

/-- `importFromCheck` appends exactly the declaration's contribution and
records its module path. -/
theorem importFromCheck_spec (st : VState) (module : Option String) (l : Nat) :
    importFromCheck st module l
      = { st with errors := st.errors ++ errsStmt (.importFrom module [] l),
                  imports := st.imports ++ impsStmt (.importFrom module [] l) } := by
  cases module with
  | none => simp [importFromCheck, errsStmt, impsStmt]
  | some m =>
    by_cases h : m == ""
    · simp [importFromCheck, errsStmt, impsStmt, h]
    · simp only [importFromCheck, errsStmt, impsStmt, h, importContrib, fmtFor,
        Bool.false_eq_true, if_false]
      split <;> simp

mutual

/-- The expression walk appends exactly the collected call errors and
leaves warnings and imports unchanged. -/
theorem visitExpr_spec (st : VState) (e : PyExpr) :
    visitExpr st e = { st with errors := st.errors ++ errsExpr e } := by
  cases e with
  | name id l => simp [visitExpr, errsExpr]
  | const l => simp [visitExpr, errsExpr]
  | attr v a l =>
    rw [visitExpr, visitExpr_spec st v]
    simp [errsExpr]
  | call f args l =>
    rw [visitExpr, visitExpr_spec (callCheck st f l) f,
      visitExprs_spec ({ callCheck st f l with
        errors := (callCheck st f l).errors ++ errsExpr f }) args, callCheck_spec]
    simp [errsExpr]

/-- The expression-list walk appends exactly the collected call errors. -/
theorem visitExprs_spec (st : VState) (es : List PyExpr) :
    visitExprs st es = { st with errors := st.errors ++ errsExprs es } := by
  cases es with
  | nil => simp [visitExprs, errsExprs]
  | cons e es =>
    rw [visitExprs, visitExpr_spec st e,
      visitExprs_spec ({ st with errors := st.errors ++ errsExpr e }) es]
    simp [errsExprs]

end

mutual

/-- The statement walk appends exactly the collected errors and recorded
imports and leaves warnings unchanged. -/
theorem visitStmt_spec (st : VState) (s : PyStmt) :
    visitStmt st s
      = { st with errors := st.errors ++ errsStmt s,
                  imports := st.imports ++ impsStmt s } := by
  cases s with
  | exprStmt e l => rw [visitStmt, visitExpr_spec]; simp [errsStmt, impsStmt]
  | assign tgts v l =>
    rw [visitStmt, visitExprs_spec st tgts,
      visitExpr_spec ({ st with errors := st.errors ++ errsExprs tgts }) v]
    simp [errsStmt, impsStmt]
  | importStmt names l => rw [visitStmt, importStep_fold]; simp [errsStmt, impsStmt]
  | importFrom module names l =>
    rw [visitStmt, importFromCheck_spec]
    cases module with
    | none => simp [errsStmt, impsStmt]
    | some m => by_cases h : m == "" <;> simp [errsStmt, impsStmt, h]
  | funcDef nm body l => rw [visitStmt, visitStmts_spec st body]; simp [errsStmt, impsStmt]
  | asyncFuncDef nm body l => rw [visitStmt, visitStmts_spec st body]; simp [errsStmt, impsStmt]
  | ifStmt t body orelse l =>
    rw [visitStmt, visitExpr_spec st t,
      visitStmts_spec ({ st with errors := st.errors ++ errsExpr t }) body,
      visitStmts_spec ({ st with errors := st.errors ++ errsExpr t ++ errsStmts body,
                                 imports := st.imports ++ impsStmts body }) orelse]
    simp [errsStmt, impsStmt]
  | ret v l =>
    cases v with
    | none => simp [visitStmt, errsStmt, impsStmt]
    | some e => rw [visitStmt, visitExpr_spec st e]; simp [errsStmt, impsStmt]

/-- The statement-list walk appends exactly the collected errors and
recorded imports. -/
theorem visitStmts_spec (st : VState) (ss : List PyStmt) :
    visitStmts st ss
      = { st with errors := st.errors ++ errsStmts ss,
                  imports := st.imports ++ impsStmts ss } := by
  cases ss with
  | nil => simp [visitStmts, errsStmts, impsStmts]
  | cons s ss =>
    rw [visitStmts, visitStmt_spec st s,
      visitStmts_spec ({ st with errors := st.errors ++ errsStmt s,
                                 imports := st.imports ++ impsStmt s }) ss]
    simp [errsStmts, impsStmts]

end

/-- Running the visitor on a module from a fresh state. -/
theorem visitStmts_run (m : List PyStmt) :
    visitStmts ⟨[], [], []⟩ m = ⟨errsStmts m, [], impsStmts m⟩ := by
  rw [visitStmts_spec]
  simp

/-- `validate_python_code` on a successfully parsed module, in closed form. -/
theorem validate_ok_eq (m : List PyStmt) (code : String) :
    validate_python_code (.ok m) code
      = { valid := (errsStmts m).isEmpty,
          errors := errsStmts m,
          warnings := secretWarnings 1 (pySplitNl code.data)
              ++ printWarnings 1 (pySplitNl code.data)
              ++ (if (impsStmts m).isEmpty then ["No imports detected - code may be incomplete"] else []),
          imports_found := impsStmts m } := by
  simp [validate_python_code, visitStmts_run]

/-- Every list is a prefix of itself. -/
theorem isPrefixL_refl (l : List Char) : isPrefixL l l = true := by
  induction l with
  | nil => rfl
  | cons c cs ih => simp [isPrefixL, ih]

/-- Every list is a substring of itself. -/
theorem containsSub_refl (b : List Char) : containsSub b b = true := by
  cases b with
  | nil => rfl
  | cons c t => simp [containsSub, isPrefixL_refl]

/-- A suffix is a substring. -/
theorem containsSub_suffix (a b : List Char) : containsSub (a ++ b) b = true := by
  induction a with
  | nil => simpa using containsSub_refl b
  | cons c a ih => simp [containsSub, ih]

/-- The call-error message of one `(lineno, id)` occurrence. -/
def fmtPair (p : Nat × String) : String := fmtCall p.1 p.2

/-- The messages of the occurrences at one call target are exactly its
contribution. -/
theorem map_fmtPair_callPairs (f : PyExpr) (l : Nat) :
    (callPairs f l).map fmtPair = callContrib f l := by
  cases f <;> simp only [callPairs, callContrib] <;> try rfl
  split <;> simp [fmtPair]

mutual

/-- The call-error messages embed, in order, into an expression's errors. -/
theorem bcExpr_sub (e : PyExpr) :
    List.Sublist ((bcExpr e).map fmtPair) (errsExpr e) := by
  cases e with
  | name id l => simp [bcExpr, errsExpr]
  | const l => simp [bcExpr, errsExpr]
  | attr v a l =>
    simp only [bcExpr, errsExpr]
    exact bcExpr_sub v
  | call f args l =>
    simp only [bcExpr, errsExpr, List.map_append, map_fmtPair_callPairs]
    exact List.Sublist.append
      (List.Sublist.append (List.Sublist.refl _) (bcExpr_sub f)) (bcExprs_sub args)

/-- The call-error messages embed into an expression list's errors. -/
theorem bcExprs_sub (es : List PyExpr) :
    List.Sublist ((bcExprs es).map fmtPair) (errsExprs es) := by
  cases es with
  | nil => simp [bcExprs, errsExprs]
  | cons e es =>
    simp only [bcExprs, errsExprs, List.map_append]
    exact List.Sublist.append (bcExpr_sub e) (bcExprs_sub es)

end

mutual

/-- The call-error messages embed, in order, into a statement's errors. -/
theorem bcStmt_sub (s : PyStmt) :
    List.Sublist ((bcStmt s).map fmtPair) (errsStmt s) := by
  cases s with
  | exprStmt e l => simp only [bcStmt, errsStmt]; exact bcExpr_sub e
  | assign tgts v l =>
    simp only [bcStmt, errsStmt, List.map_append]
    exact List.Sublist.append (bcExprs_sub tgts) (bcExpr_sub v)
  | importStmt names l => simp only [bcStmt, errsStmt, List.map_nil]; exact List.nil_sublist _
  | importFrom module names l =>
    simp only [bcStmt, List.map_nil]
    exact List.nil_sublist _
  | funcDef nm body l => simp only [bcStmt, errsStmt]; exact bcStmts_sub body
  | asyncFuncDef nm body l => simp only [bcStmt, errsStmt]; exact bcStmts_sub body
  | ifStmt t body orelse l =>
    simp only [bcStmt, errsStmt, List.map_append]
    exact List.Sublist.append
      (List.Sublist.append (bcExpr_sub t) (bcStmts_sub body)) (bcStmts_sub orelse)
  | ret v l =>
    cases v with
    | none => simp [bcStmt, errsStmt]
    | some e => simp only [bcStmt, errsStmt]; exact bcExpr_sub e

/-- The call-error messages embed into a statement list's errors. -/
theorem bcStmts_sub (ss : List PyStmt) :
    List.Sublist ((bcStmts ss).map fmtPair) (errsStmts ss) := by
  cases ss with
  | nil => simp [bcStmts, errsStmts]
  | cons s ss =>
    simp only [bcStmts, errsStmts, List.map_append]
    exact List.Sublist.append (bcStmt_sub s) (bcStmts_sub ss)

end

mutual

/-- A recorded unauthorized import declaration contributes its message to
the statement's errors. -/
theorem importDecl_err_stmt (s : PyStmt) (l : Nat) (n : String) (bb : Bool)
    (hmem : (l, n, bb) ∈ importDeclsStmt s)
    (hna : ALLOWED_IMPORTS.contains (rootOf n) = false) :
    fmtFor bb l n ∈ errsStmt s := by
  have hna2 : rootOf n ∉ ALLOWED_IMPORTS := by simpa using hna
  cases s with
  | exprStmt e l2 => simp [importDeclsStmt] at hmem
  | assign tgts v l2 => simp [importDeclsStmt] at hmem
  | ret v l2 => simp [importDeclsStmt] at hmem
  | importStmt names l2 =>
    simp only [importDeclsStmt, List.mem_map, Prod.mk.injEq] at hmem
    obtain ⟨m, hm, h1, h2, h3⟩ := hmem
    subst h1; subst h2; subst h3
    simp only [errsStmt]
    refine List.mem_flatMap.mpr ⟨m, hm, ?_⟩
    simp [importContrib, hna2]
  | importFrom module names l2 =>
    cases module with
    | none => simp [importDeclsStmt] at hmem
    | some m =>
      by_cases hm : m == ""
      · simp [importDeclsStmt, hm] at hmem
      · simp only [importDeclsStmt, hm, Bool.false_eq_true, if_false,
          List.mem_singleton, Prod.mk.injEq] at hmem
        obtain ⟨h1, h2, h3⟩ := hmem
        subst h1; subst h2; subst h3
        simp [errsStmt, hm, importContrib, hna2]
  | funcDef nm body l2 =>
    simp only [importDeclsStmt] at hmem
    simp only [errsStmt]
    exact importDecl_err_stmts body l n bb hmem hna
  | asyncFuncDef nm body l2 =>
    simp only [importDeclsStmt] at hmem
    simp only [errsStmt]
    exact importDecl_err_stmts body l n bb hmem hna
  | ifStmt t body orelse l2 =>
    simp only [importDeclsStmt, List.mem_append] at hmem
    simp only [errsStmt, List.mem_append]
    cases hmem with
    | inl h => exact Or.inl (Or.inr (importDecl_err_stmts body l n bb h hna))
    | inr h => exact Or.inr (importDecl_err_stmts orelse l n bb h hna)

/-- A recorded unauthorized import declaration contributes its message to
a statement list's errors. -/
theorem importDecl_err_stmts (ss : List PyStmt) (l : Nat) (n : String) (bb : Bool)
    (hmem : (l, n, bb) ∈ importDecls ss)
    (hna : ALLOWED_IMPORTS.contains (rootOf n) = false) :
    fmtFor bb l n ∈ errsStmts ss := by
  cases ss with
  | nil => simp [importDecls] at hmem
  | cons s ss =>
    simp only [importDecls, List.mem_append] at hmem
    simp only [errsStmts, List.mem_append]
    cases hmem with
    | inl h => exact Or.inl (importDecl_err_stmt s l n bb h hna)
    | inr h => exact Or.inr (importDecl_err_stmts ss l n bb h hna)

end

/-! ## Facts about the policy engine -/

/-- `find?` succeeds exactly when some element satisfies the predicate. -/
theorem find?_isSome_eq_any {α : Type} (l : List α) (p : α → Bool) :
    (l.find? p).isSome = l.any p := by
  induction l with
  | nil => rfl
  | cons a l ih => cases h : p a <;> simp [List.find?_cons, h, ih]

/-- A regex accepting the empty string is found by `re.search` in every
string (it matches the empty substring at position 0). -/
theorem reSearchL_of_nullable (ci : Bool) (r : Regex) (h : nullable r = true)
    (l : List Char) : reSearchL ci r l = true := by
  cases l <;> simp [reSearchL, prefixMatch, h]

/-- The compiled form of the registry's pattern `wget.*\\|` (the raw
source text `r'wget.*\\|'`): because `\\` escapes one backslash, the `|`
is a live alternation whose right branch is empty. -/
def wgetRe : Regex := (compileRegex "wget.*\\\\|").getD .emp

/-- The `wget.*\\|` pattern accepts the empty string via its empty
alternation branch. -/
theorem wget_nullable : nullable wgetRe = true := by decide

/-- Hence `re.search` finds `wget.*\\|` in every command string. -/
theorem wget_always_matches (s : String) : reSearchS true "wget.*\\\\|" s = true := by
  show (match compileRegex "wget.*\\\\|" with
        | some r => reSearchL true r s.data
        | none => false) = true
  rw [show compileRegex "wget.*\\\\|" = some wgetRe from rfl]
  exact reSearchL_of_nullable true wgetRe wget_nullable s.data

/-- The `blocked_patterns` list of the `execute_command` policy. -/
def execBlockedPatterns : List String :=
  ["rm\\\\s+-rf", "dd\\\\s+if=", ":\\\\(\\\\)\\\\\x7b", "chmod\\\\s+\\\\d+\\\\s+/",
   ">\\\\s*/dev/sd", "wget.*\\\\|", "curl.*\\\\|"]

/-- The `blocked_paths` list shared by the `read_file` and
`write_to_file` policies. -/
def rwBlockedPaths : List String :=
  ["/etc/", "/proc/", "/sys/", "/root/", "~/.ssh", "~/.gnupg"]

/-- Every command string matches some `execute_command` blocked pattern:
the malformed `wget.*\\|` pattern matches everything. -/
theorem execBlocked_find?_isSome (cmd : String) :
    (execBlockedPatterns.find? (fun p => reSearchS true p cmd)).isSome := by
  rw [List.find?_isSome]
  exact ⟨"wget.*\\\\|", by simp [execBlockedPatterns], wget_always_matches cmd⟩

/-- `_validate_read_file` returns a decision (never raises) once its
policy carries a `blocked_paths` entry. -/
theorem _validate_read_file_isOk (params : Params) (pol : Policy) (res : Decision)
    (h : pol.blocked_paths.isSome) : (_validate_read_file params pol res).isOk = true := by
  obtain ⟨pats, hp⟩ := Option.isSome_iff_exists.mp h
  simp only [_validate_read_file, hp]
  split
  · rfl
  · split
    · split <;> rfl
    · rfl

/-- `_validate_write_file` returns a decision once its policy carries
`blocked_paths` and `max_file_size` entries. -/
theorem _validate_write_file_isOk (params : Params) (pol : Policy) (res : Decision)
    (h : pol.blocked_paths.isSome) (h2 : pol.max_file_size.isSome) :
    (_validate_write_file params pol res).isOk = true := by
  obtain ⟨pats, hp⟩ := Option.isSome_iff_exists.mp h
  obtain ⟨m, hm⟩ := Option.isSome_iff_exists.mp h2
  simp only [_validate_write_file, hp, hm]
  split
  · rfl
  · split <;> rfl

/-- `_validate_browser_navigate` always returns a decision, for every
policy: its `except` handler converts every raise of the body into a
denial. -/
theorem _validate_browser_navigate_isOk (params : Params) (pol : Policy) (res : Decision) :
    (_validate_browser_navigate params pol res).isOk = true := by
  simp only [_validate_browser_navigate]
  split <;> rfl

/-- `_validate_execute_command`, run against the actual
`execute_command` policy, returns a decision: the always-matching
blocked pattern denies before the `command.split()[0]` indexing (which
would raise on an empty command) can be reached. -/
theorem _validate_execute_command_isOk (params : Params) (res : Decision) :
    (_validate_execute_command params (generate_security_policy "execute_command") res).isOk
      = true := by
  have hbp : (generate_security_policy "execute_command").blocked_patterns
      = some execBlockedPatterns := rfl
  simp only [_validate_execute_command, hbp]
  obtain ⟨p, hp⟩ := Option.isSome_iff_exists.mp
    (execBlocked_find?_isSome (getParam params "command" ""))
  rw [hp]
  rfl

/-! ## The claims -/

/-- C1: evaluating `execute_command` on `rm -rf /` does deny, but the
reason cites the pattern `wget.*\\|` — whose double-escaped backslash
leaves a live alternation with an empty branch, matching every command —
not the destructive `rm` pattern: that pattern, double-escaped in the
source as `rm\\s+-rf`, only matches commands containing a literal
backslash and does not match `rm -rf /` at all. -/
theorem rm_rf_denied_citing_malformed_wget_pattern :
    validate_tool_call "execute_command" [("command", "rm -rf /")]
      = .ok { allowed := false,
              reason := "Command blocked by security policy: wget.*\\\\|",
              warnings := [], modified_params := [] }
    ∧ reSearchS true "rm\\\\s+-rf" "rm -rf /" = false :=
  ⟨rfl, rfl⟩

/-- C2 (counterexample): a parent-directory traversal path matching no
blocked pattern is allowed by `read_file` with no warning: the engine
has no `..` check, refuting that `..` always causes denial. -/
theorem traversal_path_allowed :
    containsSub "../notes.txt".data "..".data = true
    ∧ validate_tool_call "read_file" [("path", "../notes.txt")]
        = .ok { allowed := true, reason := "", warnings := [], modified_params := [] } :=
  ⟨rfl, rfl⟩

/-- C2 (amended): for the path-rule capabilities `read_file` and
`write_to_file`, the path causes denial exactly when it matches one of
the `blocked_paths` regex patterns — a `..` traversal segment by itself
never causes denial — and `write_to_file` additionally denies content
over `max_file_size` bytes. -/
theorem path_rules_deny_iff_blocked_pattern :
    ∀ params : Params,
      (validate_tool_call "read_file" params).map Decision.allowed
        = .ok (!rwBlockedPaths.any (fun q => reSearchS false q (getParam params "path" "")))
      ∧ (validate_tool_call "write_to_file" params).map Decision.allowed
        = .ok (!rwBlockedPaths.any (fun q => reSearchS false q (getParam params "path" ""))
            && !(decide ((getParam params "content" "").utf8ByteSize > 10485760))) := by
  intro params
  constructor
  · have h0 : validate_tool_call "read_file" params
        = _validate_read_file params (generate_security_policy "read_file")
            { allowed := true, reason := "", warnings := [], modified_params := [] } := rfl
    have hbp : (generate_security_policy "read_file").blocked_paths = some rwBlockedPaths := rfl
    rw [h0]
    simp only [_validate_read_file, hbp]
    cases hf : rwBlockedPaths.find? (fun p => reSearchS false p (getParam params "path" "")) with
    | some q =>
      have hany : rwBlockedPaths.any (fun p => reSearchS false p (getParam params "path" "")) = true := by
        rw [← find?_isSome_eq_any, hf]; rfl
      rw [hany]
      rfl
    | none =>
      have hany : rwBlockedPaths.any (fun p => reSearchS false p (getParam params "path" "")) = false := by
        rw [← find?_isSome_eq_any, hf]; rfl
      rw [hany]
      simp only []
      split
      · split <;> rfl
      · rfl
  · have h0 : validate_tool_call "write_to_file" params
        = _validate_write_file params (generate_security_policy "write_to_file")
            { allowed := true, reason := "", warnings := [], modified_params := [] } := rfl
    have hbp : (generate_security_policy "write_to_file").blocked_paths = some rwBlockedPaths := rfl
    have hms : (generate_security_policy "write_to_file").max_file_size = some 10485760 := rfl
    rw [h0]
    simp only [_validate_write_file, hbp, hms]
    cases hf : rwBlockedPaths.find? (fun p => reSearchS false p (getParam params "path" "")) with
    | some q =>
      have hany : rwBlockedPaths.any (fun p => reSearchS false p (getParam params "path" "")) = true := by
        rw [← find?_isSome_eq_any, hf]; rfl
      rw [hany]
      rfl
    | none =>
      have hany : rwBlockedPaths.any (fun p => reSearchS false p (getParam params "path" "")) = false := by
        rw [← find?_isSome_eq_any, hf]; rfl
      rw [hany]
      simp only []
      split <;> rename_i hsz <;> simp [hsz, Except.map]

/-- C3: `validate_tool_call` is total: for every capability name and
every string-parameter mapping it returns a decision and never raises.
In particular the `command.split()[0]` indexing of
`_validate_execute_command`, which would raise `IndexError` on a
token-less command, is unreachable because the malformed `wget.*\\|`
blocked pattern matches and denies every command first. -/
theorem validate_tool_call_never_raises :
    ∀ (tool_name : String) (params : Params),
      (validate_tool_call tool_name params).isOk = true := by
  intro name params
  by_cases h1 : name = "read_file"
  · subst h1
    exact _validate_read_file_isOk params (generate_security_policy "read_file")
      { allowed := true, reason := "", warnings := [], modified_params := [] } (by rfl)
  by_cases h2 : name = "write_to_file"
  · subst h2
    exact _validate_write_file_isOk params (generate_security_policy "write_to_file")
      { allowed := true, reason := "", warnings := [], modified_params := [] } (by rfl) (by rfl)
  by_cases h3 : name = "execute_command"
  · subst h3
    exact _validate_execute_command_isOk params
      { allowed := true, reason := "", warnings := [], modified_params := [] }
  by_cases h4 : name = "browser_navigate"
  · subst h4
    exact _validate_browser_navigate_isOk params (generate_security_policy "browser_navigate")
      { allowed := true, reason := "", warnings := [], modified_params := [] }
  simp [validate_tool_call, h1, h2, h3, h4, Except.isOk, Except.toBool]

/-- C4: every capability name outside the four dispatched ones is
allowed unchanged, with empty reason and warnings — in particular
`search_files`, although its registry entry declares blocked path
patterns, is never evaluated against any rule. -/
theorem unknown_capability_allowed_unchecked :
    (generate_security_policy "search_files").blocked_patterns
      = some ["/etc/", "/proc/", "/sys/", "~/.ssh", "~/.gnupg", "/root/"]
    ∧ ∀ (tool_name : String) (params : Params),
        tool_name ∉ (["read_file", "write_to_file", "execute_command",
                      "browser_navigate"] : List String) →
        validate_tool_call tool_name params
          = .ok { allowed := true, reason := "", warnings := [], modified_params := [] } := by
  refine ⟨rfl, ?_⟩
  intro name params h
  simp only [List.mem_cons, List.not_mem_nil, or_false, not_or] at h
  obtain ⟨h1, h2, h3, h4⟩ := h
  simp [validate_tool_call, h1, h2, h3, h4]

/-- Witness for C4: `search_files` is allowed even on a path its own
declared blocked patterns match. -/
theorem search_files_not_checked_witness :
    validate_tool_call "search_files" [("path", "/etc/passwd")]
      = .ok { allowed := true, reason := "", warnings := [], modified_params := [] } :=
  unknown_capability_allowed_unchecked.2 "search_files" [("path", "/etc/passwd")] (by decide)

/-- C10: at security level `high`, both `execute_command` and
`browser_navigate` are assessed high-risk, and the compatibility check
on exactly that pair reports the issue citing the combination. -/
theorem high_level_exec_browser_assessment :
    _assess_tool_risk "execute_command" (generate_security_policy "execute_command") "high" = "high"
    ∧ _assess_tool_risk "browser_navigate" (generate_security_policy "browser_navigate") "high" = "high"
    ∧ _check_tool_compatibility ["execute_command", "browser_navigate"]
        = ["Combining command execution with browser automation may have security implications"] :=
  ⟨rfl, rfl, rfl⟩

/-- C5: `valid` is true exactly when `errors` is empty, for every input
(parse failures included); warnings never affect `valid`. -/
theorem valid_iff_errors_empty :
    ∀ (parsed : Except SyntaxErr (List PyStmt)) (code : String),
      (validate_python_code parsed code).valid = true
        ↔ (validate_python_code parsed code).errors = [] := by
  intro parsed code
  cases parsed with
  | error e => simp [validate_python_code]
  | ok m =>
    rw [validate_ok_eq]
    simp [List.isEmpty_iff]

/-- C8: a parse failure yields `valid=false` with exactly one error
diagnostic citing the failing line, and no further scan runs: warnings
and imports are empty. -/
theorem parse_failure_single_error :
    ∀ (lineno : Nat) (msg : String) (code : String),
      validate_python_code (.error ⟨lineno, msg⟩) code
        = { valid := false,
            errors := [s!"Syntax error at line {lineno}: {msg}"],
            warnings := [],
            imports_found := [] } := by
  intro lineno msg code
  rfl

/-- C6: the call-site scan.  The validator's errors are exactly the
walk-order per-node contributions; a call node contributes a diagnostic
iff its target is a bare name in `FORBIDDEN_CALLS`, and then the
diagnostic cites the call's line and the name; an attribute (method)
target never contributes; and every bare forbidden call at line `L`
puts its diagnostic into the final errors with `valid=false`. -/
theorem bare_forbidden_calls_flagged_iff :
    (∀ (m : List PyStmt) (code : String),
        (validate_python_code (.ok m) code).errors = errsStmts m)
    ∧ (∀ (st : VState) (f : PyExpr) (args : List PyExpr) (l : Nat),
        (visitExpr st (.call f args l)).errors
          = st.errors ++ callContrib f l ++ errsExpr f ++ errsExprs args)
    ∧ (∀ (f : PyExpr) (l : Nat),
        callContrib f l ≠ []
          ↔ ∃ id li, f = .name id li ∧ FORBIDDEN_CALLS.contains id = true)
    ∧ (∀ (id : String) (li l : Nat),
        FORBIDDEN_CALLS.contains id = true → callContrib (.name id li) l = [fmtCall l id])
    ∧ (∀ (v : PyExpr) (a : String) (li l : Nat), callContrib (.attr v a li) l = [])
    ∧ (∀ (m : List PyStmt) (code : String) (L : Nat) (id : String),
        (L, id) ∈ bcStmts m →
          fmtCall L id ∈ (validate_python_code (.ok m) code).errors
          ∧ (validate_python_code (.ok m) code).valid = false) := by
  refine ⟨?_, ?_, ?_, ?_, ?_, ?_⟩
  · intro m code
    rw [validate_ok_eq]
  · intro st f args l
    rw [visitExpr_spec]
    simp [errsExpr, List.append_assoc]
  · intro f l
    cases f with
    | name id li =>
      constructor
      · intro hne
        by_cases h : FORBIDDEN_CALLS.contains id
        · exact ⟨id, li, rfl, h⟩
        · have h2 : id ∉ FORBIDDEN_CALLS := by simpa using h
          exact absurd (by simp [callContrib, h2]) hne
      · rintro ⟨id2, li2, heq, hc⟩
        injection heq with e1 e2
        subst e1
        have hc2 : id ∈ FORBIDDEN_CALLS := by simpa using hc
        simp [callContrib, hc2]
    | attr v a li => simp [callContrib]
    | call f2 args2 li => simp [callContrib]
    | const li => simp [callContrib]
  · intro id li l h
    have h2 : id ∈ FORBIDDEN_CALLS := by simpa using h
    simp [callContrib, h2]
  · intro v a li l
    simp [callContrib]
  · intro m code L id hmem
    have hin : fmtCall L id ∈ errsStmts m :=
      (bcStmts_sub m).subset (List.mem_map_of_mem fmtPair hmem)
    have hne : errsStmts m ≠ [] := List.ne_nil_of_mem hin
    constructor
    · rw [validate_ok_eq]
      exact hin
    · rw [validate_ok_eq]
      cases hE : (errsStmts m).isEmpty with
      | true => exact absurd (List.isEmpty_iff.mp hE) hne
      | false => rfl

/-- Witness for C6: the module `eval("1+1")` has its bare call flagged
at line 1 and is invalid. -/
theorem bare_eval_call_flagged_witness :
    fmtCall 1 "eval" ∈ (validate_python_code
        (.ok [.exprStmt (.call (.name "eval" 1) [.const 1] 1) 1]) "eval(\"1+1\")").errors
    ∧ (validate_python_code
        (.ok [.exprStmt (.call (.name "eval" 1) [.const 1] 1) 1]) "eval(\"1+1\")").valid
      = false :=
  bare_forbidden_calls_flagged_iff.2.2.2.2.2
    [.exprStmt (.call (.name "eval" 1) [.const 1] 1) 1] "eval(\"1+1\")" 1 "eval" (by decide)

/-- C7: the import scan.  An `import` statement records each alias and
contributes that alias's diagnostic; a non-empty `from x import y`
records and checks its module; a declaration's contribution is non-empty
iff the root segment of the module path is not allow-listed, in which
case it is the single diagnostic containing the full module path; and
every recorded declaration with an unauthorized root puts its diagnostic
into the final errors with `valid=false` (so a submodule of an
allow-listed root never produces an error). -/
theorem unauthorized_import_roots_flagged_iff :
    (∀ (st : VState) (names : List String) (l : Nat),
        visitStmt st (.importStmt names l)
          = { st with errors := st.errors ++ names.flatMap (importContrib false l),
                      imports := st.imports ++ names })
    ∧ (∀ (st : VState) (m : String) (names : List String) (l : Nat), m ≠ "" →
        visitStmt st (.importFrom (some m) names l)
          = { st with errors := st.errors ++ importContrib true l m,
                      imports := st.imports ++ [m] })
    ∧ (∀ (bb : Bool) (l : Nat) (n : String),
        importContrib bb l n ≠ [] ↔ ALLOWED_IMPORTS.contains (rootOf n) = false)
    ∧ (∀ (bb : Bool) (l : Nat) (n : String),
        ALLOWED_IMPORTS.contains (rootOf n) = false →
          importContrib bb l n = [fmtFor bb l n]
          ∧ containsSub (fmtFor bb l n).data n.data = true)
    ∧ (∀ (m : List PyStmt) (code : String) (l : Nat) (n : String) (bb : Bool),
        (l, n, bb) ∈ importDecls m → ALLOWED_IMPORTS.contains (rootOf n) = false →
          fmtFor bb l n ∈ (validate_python_code (.ok m) code).errors
          ∧ (validate_python_code (.ok m) code).valid = false) := by
  refine ⟨?_, ?_, ?_, ?_, ?_⟩
  · intro st names l
    rw [visitStmt_spec]
    simp [errsStmt, impsStmt]
  · intro st m names l h
    rw [visitStmt_spec]
    simp [errsStmt, impsStmt, h]
  · intro bb l n
    by_cases h : ALLOWED_IMPORTS.contains (rootOf n) <;> simp [importContrib, h]
  · intro bb l n h
    have h2 : rootOf n ∉ ALLOWED_IMPORTS := by simpa using h
    refine ⟨by simp [importContrib, h2], ?_⟩
    cases bb with
    | false =>
      rw [show fmtFor false l n
          = ("Line " ++ toString l ++ ": Unauthorized import: ") ++ n from rfl,
        String.data_append]
      exact containsSub_suffix _ _
    | true =>
      rw [show fmtFor true l n
          = ("Line " ++ toString l ++ ": Unauthorized import from: ") ++ n from rfl,
        String.data_append]
      exact containsSub_suffix _ _
  · intro m code l n bb hmem hna
    have hin : fmtFor bb l n ∈ errsStmts m := importDecl_err_stmts m l n bb hmem hna
    have hne : errsStmts m ≠ [] := List.ne_nil_of_mem hin
    constructor
    · rw [validate_ok_eq]
      exact hin
    · rw [validate_ok_eq]
      cases hE : (errsStmts m).isEmpty with
      | true => exact absurd (List.isEmpty_iff.mp hE) hne
      | false => rfl

/-- Witness for C7: `import evil_pkg` is flagged at line 2 with the
module path in the diagnostic, and the result is invalid. -/
theorem unauthorized_import_flagged_witness :
    fmtImp 2 "evil_pkg"
        ∈ (validate_python_code (.ok [.importStmt ["evil_pkg"] 2]) "import evil_pkg").errors
    ∧ (validate_python_code (.ok [.importStmt ["evil_pkg"] 2]) "import evil_pkg").valid
      = false :=
  unauthorized_import_roots_flagged_iff.2.2.2.2
    [.importStmt ["evil_pkg"] 2] "import evil_pkg" 2 "evil_pkg" false (by decide) (by decide)

/-- C9 (counterexample): `import os.path` records the full path
`os.path` in `imports_found`, not the root segment `os` the claim
states (the root is computed, but only for the allow-list check). -/
theorem imports_found_not_root_segment :
    (validate_python_code (.ok [.importStmt ["os.path"] 1]) "import os.path").imports_found
      = ["os.path"]
    ∧ rootOf "os.path" = "os"
    ∧ ("os.path" : String) ≠ "os" :=
  ⟨rfl, rfl, by decide⟩

/-- C9 (amended): the element recorded in `imports_found` for an import
declaration is the full imported module path (both forms). -/
theorem imports_found_records_full_paths :
    (∀ (m : List PyStmt) (code : String),
        (validate_python_code (.ok m) code).imports_found = impsStmts m)
    ∧ (∀ (st : VState) (names : List String) (l : Nat),
        (visitStmt st (.importStmt names l)).imports = st.imports ++ names)
    ∧ (∀ (st : VState) (m : String) (names : List String) (l : Nat), m ≠ "" →
        (visitStmt st (.importFrom (some m) names l)).imports = st.imports ++ [m]) := by
  refine ⟨?_, ?_, ?_⟩
  · intro m code
    rw [validate_ok_eq]
  · intro st names l
    rw [visitStmt_spec]
    simp [impsStmt]
  · intro st m names l h
    rw [visitStmt_spec]
    simp [impsStmt, h]

/-- Witness for C9: `from os.path import join` records `os.path`. -/
theorem import_from_full_path_recorded_witness :
    (visitStmt ⟨[], [], []⟩ (.importFrom (some "os.path") ["join"] 1)).imports
      = [] ++ ["os.path"] :=
  imports_found_records_full_paths.2.2 ⟨[], [], []⟩ "os.path" ["join"] 1 (by decide)

end AgentGate
